import Mathlib

/-!
Shallow embedding of `services/comparison.py` (codecov-api): the file-comparison
line reconciler (`FileComparisonTraverseManager`), its two visitors,
`LineComparison`, `FileComparison` (truncation and pass-skipping policies), and
the pull-request change-detection cache glue of `Comparison`.

Modelling conventions:
* Python strings are `List Char`; Python `int` is `Int`; Python `None` is
  `Option.none`.
* Python list indexing (front indices, negative wrap-around, `IndexError`) is
  `pyGet`; an uncaught `IndexError` inside the traversal is the `none` result of
  `TraverseState.popLine` / `TraverseState.step`.
* The `while` loop of `FileComparisonTraverseManager.apply` can diverge, so it
  is modelled with explicit fuel (`applyN`); `none` means the loop did not
  reach `traverse_finished` within the fuel (or an indexing error occurred).
-/

namespace CodecovComparison

/-- A raw line of diff/source text (a Python string). -/
abbrev RawLine := List Char

/-- Python list indexing `xs[i]`: non-negative indices count from the front,
negative indices wrap around from the back, and an out-of-range index raises
`IndexError`, modelled as `none`. -/
def pyGet {α : Type} (xs : List α) (i : Int) : Option α :=
  if 0 ≤ i then xs.get? i.toNat
  else if 0 ≤ (xs.length : Int) + i then xs.get? ((xs.length : Int) + i).toNat
  else none

/-- `_is_added(line_value)`: `line_value and line_value[0] == "+"`.
`None` and the empty string are falsy.  (The Python function returns the falsy
operand itself rather than `False` in those cases; it is only ever used in
boolean position, so a `Bool` result is faithful.) -/
def _is_added : Option RawLine → Bool
  | some ('+' :: _) => true
  | _ => false

/-- `_is_removed(line_value)`: `line_value and line_value[0] == "-"`. -/
def _is_removed : Option RawLine → Bool
  | some ('-' :: _) => true
  | _ => false

/-- A diff hunk header `[base offset, base length, head offset, head length]`.
In the source these are strings parsed with `int(...)`; the two length fields
are read as `int(header[i] or 1)`, so an empty length string falls back to 1 —
modelled by `Option Int` with `none` for an empty field.  Unparseable headers
are a fatal input error per the diff-source contract and are outside the model. -/
structure SegmentHeader where
  baseOff : Int
  baseLen : Option Int
  headOff : Int
  headLen : Option Int
deriving DecidableEq

/-- The effective length `int(header[i] or 1)` of a header length field. -/
def effLen : Option Int → Int
  | none => 1
  | some n => n

/-- One diff segment (hunk): header plus the queue of raw line values, consumed
destructively by the traversal. -/
structure Segment where
  header : SegmentHeader
  lines : List RawLine
deriving DecidableEq

/-- The mutable state of a `FileComparisonTraverseManager`. -/
structure TraverseState where
  headFileEof : Int
  baseFileEof : Int
  segments : List Segment
  src : List RawLine
  baseLn : Int
  headLn : Int
deriving DecidableEq

/-- `FileComparisonTraverseManager.__init__`: if segments exist the pointers
start at `min(1, first offset)` (base offsets can be 0 for added/removed
files), otherwise both start at 1. -/
def TraverseState.init (headFileEof baseFileEof : Int) (segments : List Segment)
    (src : List RawLine) : TraverseState :=
  match segments with
  | seg :: _ =>
      { headFileEof := headFileEof, baseFileEof := baseFileEof,
        segments := segments, src := src,
        baseLn := min 1 seg.header.baseOff,
        headLn := min 1 seg.header.headOff }
  | [] =>
      { headFileEof := headFileEof, baseFileEof := baseFileEof,
        segments := segments, src := src, baseLn := 1, headLn := 1 }

/-- `FileComparisonTraverseManager.traverse_finished`. -/
def TraverseState.traverseFinished (s : TraverseState) : Bool :=
  if !s.segments.isEmpty then false
  else if !s.src.isEmpty then decide ((s.src.length : Int) < s.headLn)
  else decide (s.headFileEof ≤ s.headLn) && decide (s.baseFileEof ≤ s.baseLn)

/-- `FileComparisonTraverseManager.traversing_diff`: the head segment is active
when `base_ln` lies in `[base_off, base_off + base_len)` or `head_ln` lies in
`[head_off, head_off + head_len)`. -/
def TraverseState.traversingDiff (s : TraverseState) : Bool :=
  match s.segments with
  | [] => false
  | seg :: _ =>
      (decide (seg.header.baseOff ≤ s.baseLn) &&
         decide (s.baseLn < seg.header.baseOff + effLen seg.header.baseLen)) ||
      (decide (seg.header.headOff ≤ s.headLn) &&
         decide (s.headLn < seg.header.headOff + effLen seg.header.headLen))

/-- `FileComparisonTraverseManager.pop_line`, value part.  The result is
`some (some v)` for a produced raw line, `some none` when the method returns
`None` (no active segment, no source), and `none` for an uncaught `IndexError`
(`pop(0)` on an empty active segment's line list, or a source index out of
range). -/
def TraverseState.popLine (s : TraverseState) : Option (Option RawLine) :=
  if s.traversingDiff then
    match s.segments with
    | seg :: _ =>
        match seg.lines with
        | v :: _ => some (some v)
        | [] => none
    | [] => some none
  else if !s.src.isEmpty then
    match pyGet s.src (s.headLn - 1) with
    | some v => some (some v)
    | none => none
  else some none

/-- The state mutation performed by `pop_line` (removing the popped line from
the active segment's queue). -/
def TraverseState.popMutate (s : TraverseState) : TraverseState :=
  if s.traversingDiff then
    match s.segments with
    | seg :: rest =>
        { s with segments := { header := seg.header, lines := seg.lines.tail } :: rest }
    | [] => s
  else s

/-- The pointer advance at the end of an `apply` iteration: added lines advance
only `head_ln`, removed lines only `base_ln`, all other values both. -/
def advancePtrs (v : Option RawLine) (s : TraverseState) : TraverseState :=
  if _is_added v then { s with headLn := s.headLn + 1 }
  else if _is_removed v then { s with baseLn := s.baseLn + 1 }
  else { s with headLn := s.headLn + 1, baseLn := s.baseLn + 1 }

/-- End-of-iteration retirement of the head segment once its line queue is
empty (`if self.segments and not self.segments[0]["lines"]: self.segments.pop(0)`). -/
def retireHeadSegment (s : TraverseState) : TraverseState :=
  match s.segments with
  | seg :: rest => if seg.lines.isEmpty then { s with segments := rest } else s
  | [] => s

/-- The event handed to every visitor in one `apply` iteration. -/
structure LineEvent where
  baseLn : Option Int
  headLn : Option Int
  value : Option RawLine
  isDiff : Bool
deriving DecidableEq

/-- One iteration of the `while` loop of `apply`: pop a line, emit the event
passed to every visitor, advance the pointers, retire an exhausted active
segment.  `none` models an uncaught `IndexError`.  In the source the `is_diff`
flag is evaluated after the pop, but `traversing_diff` reads only the header
and the pointers, which the pop does not change, so `s.traversingDiff` is the
same value. -/
def TraverseState.step (s : TraverseState) : Option (LineEvent × TraverseState) :=
  match s.popLine with
  | none => none
  | some v =>
      some ({ baseLn := if _is_added v then none else some s.baseLn,
              headLn := if _is_removed v then none else some s.headLn,
              value := v,
              isDiff := s.traversingDiff },
            retireHeadSegment (advancePtrs v s.popMutate))

/-- `FileComparisonTraverseManager.apply`, with fuel: `some (events, final)`
when the loop reaches `traverse_finished` within `fuel` iterations, `none`
otherwise (including divergence and indexing errors). -/
def applyN : Nat → TraverseState → Option (List LineEvent × TraverseState)
  | 0, s => if s.traverseFinished then some ([], s) else none
  | fuel + 1, s =>
      if s.traverseFinished then some ([], s)
      else
        match s.step with
        | none => none
        | some (e, s') =>
            match applyN fuel s' with
            | some (evs, sf) => some (e :: evs, sf)
            | none => none

/-- Iterate `step` alone, ignoring the stop condition (`none` = indexing
error): used to witness that a diverging run keeps stepping without error. -/
def stepN : Nat → TraverseState → Option TraverseState
  | 0, s => some s
  | fuel + 1, s =>
      match s.step with
      | none => none
      | some (_, s') => stepN fuel s'

theorem added_not_removed {v : Option RawLine} (h : _is_added v = true) :
    _is_removed v = false := by
  cases v with
  | none => simp [_is_added] at h
  | some l =>
    cases l with
    | nil => simp [_is_added] at h
    | cons c cs =>
      by_cases hc : c = '+'
      · subst hc; rfl
      · simp [_is_added, hc] at h

theorem removed_not_added {v : Option RawLine} (h : _is_removed v = true) :
    _is_added v = false := by
  cases v with
  | none => simp [_is_removed] at h
  | some l =>
    cases l with
    | nil => simp [_is_removed] at h
    | cons c cs =>
      by_cases hc : c = '-'
      · subst hc; rfl
      · simp [_is_removed, hc] at h

theorem popMutate_baseLn (s : TraverseState) : s.popMutate.baseLn = s.baseLn := by
  unfold TraverseState.popMutate
  split
  · cases h : s.segments <;> simp
  · rfl

theorem popMutate_headLn (s : TraverseState) : s.popMutate.headLn = s.headLn := by
  unfold TraverseState.popMutate
  split
  · cases h : s.segments <;> simp
  · rfl

theorem retire_baseLn (s : TraverseState) : (retireHeadSegment s).baseLn = s.baseLn := by
  unfold retireHeadSegment
  cases h : s.segments with
  | nil => rfl
  | cons seg rest => by_cases hl : seg.lines.isEmpty <;> simp [hl]

theorem retire_headLn (s : TraverseState) : (retireHeadSegment s).headLn = s.headLn := by
  unfold retireHeadSegment
  cases h : s.segments with
  | nil => rfl
  | cons seg rest => by_cases hl : seg.lines.isEmpty <;> simp [hl]

theorem advancePtrs_added {v : Option RawLine} (s : TraverseState)
    (h : _is_added v = true) :
    (advancePtrs v s).headLn = s.headLn + 1 ∧ (advancePtrs v s).baseLn = s.baseLn := by
  simp [advancePtrs, h]

theorem advancePtrs_removed {v : Option RawLine} (s : TraverseState)
    (h : _is_removed v = true) :
    (advancePtrs v s).baseLn = s.baseLn + 1 ∧ (advancePtrs v s).headLn = s.headLn := by
  simp [advancePtrs, removed_not_added h, h]

theorem advancePtrs_other {v : Option RawLine} (s : TraverseState)
    (ha : _is_added v = false) (hr : _is_removed v = false) :
    (advancePtrs v s).baseLn = s.baseLn + 1 ∧ (advancePtrs v s).headLn = s.headLn + 1 := by
  simp [advancePtrs, ha, hr]

/-- C1.  Every line produced by one iteration of the reconciler loop
(`FileComparisonTraverseManager.apply`) is classified, and advances the
pointers, according to the raw value's first character: a value starting with
`-` yields an event with `head_ln` absent and advances only `base_ln` by 1; a
value starting with `+` yields an event with `base_ln` absent and advances only
`head_ln` by 1; every other value (including the empty string and the `None`
no-line sentinel) yields an event carrying both pointers and advances both by
exactly 1. -/
theorem reconcilerLineClassification (s : TraverseState) (e : LineEvent)
    (s' : TraverseState) (h : s.step = some (e, s')) :
    (_is_removed e.value = true →
        e.headLn = none ∧ e.baseLn = some s.baseLn ∧
        s'.baseLn = s.baseLn + 1 ∧ s'.headLn = s.headLn) ∧
    (_is_added e.value = true →
        e.baseLn = none ∧ e.headLn = some s.headLn ∧
        s'.headLn = s.headLn + 1 ∧ s'.baseLn = s.baseLn) ∧
    (_is_added e.value = false → _is_removed e.value = false →
        e.baseLn = some s.baseLn ∧ e.headLn = some s.headLn ∧
        s'.baseLn = s.baseLn + 1 ∧ s'.headLn = s.headLn + 1) := by
  cases hp : s.popLine with
  | none => simp [TraverseState.step, hp] at h
  | some v =>
    rw [TraverseState.step, hp] at h
    have he : e = { baseLn := if _is_added v then none else some s.baseLn,
                    headLn := if _is_removed v then none else some s.headLn,
                    value := v, isDiff := s.traversingDiff } := by
      cases h; rfl
    have hs : s' = retireHeadSegment (advancePtrs v s.popMutate) := by
      cases h; rfl
    have hval : e.value = v := by rw [he]
    have hb : s'.baseLn = (advancePtrs v s.popMutate).baseLn := by
      rw [hs, retire_baseLn]
    have hh : s'.headLn = (advancePtrs v s.popMutate).headLn := by
      rw [hs, retire_headLn]
    refine ⟨?_, ?_, ?_⟩
    · intro hrem
      rw [hval] at hrem
      have hadv := advancePtrs_removed s.popMutate hrem
      rw [popMutate_baseLn, popMutate_headLn] at hadv
      refine ⟨?_, ?_, ?_, ?_⟩
      · rw [he]; simp [hrem]
      · rw [he]; simp [removed_not_added hrem]
      · rw [hb, hadv.1]
      · rw [hh, hadv.2]
    · intro hadd
      rw [hval] at hadd
      have hadv := advancePtrs_added s.popMutate hadd
      rw [popMutate_baseLn, popMutate_headLn] at hadv
      refine ⟨?_, ?_, ?_, ?_⟩
      · rw [he]; simp [hadd]
      · rw [he]; simp [added_not_removed hadd]
      · rw [hh, hadv.1]
      · rw [hb, hadv.2]
    · intro hadd hrem
      rw [hval] at hadd hrem
      have hadv := advancePtrs_other s.popMutate hadd hrem
      rw [popMutate_baseLn, popMutate_headLn] at hadv
      refine ⟨?_, ?_, ?_, ?_⟩
      · rw [he]; simp [hadd]
      · rw [he]; simp [hrem]
      · rw [hb, hadv.1]
      · rw [hh, hadv.2]

/-- The concrete input used to witness C1: one active segment holding the
single removed line `-x`. -/
def c1State : TraverseState :=
  TraverseState.init 2 2
    [{ header := { baseOff := 1, baseLen := some 1, headOff := 1, headLen := some 0 },
       lines := [['-', 'x']] }] []

/-- The event emitted by `c1State.step`. -/
def c1Event : LineEvent :=
  { baseLn := some 1, headLn := none, value := some ['-', 'x'], isDiff := true }

/-- The state after `c1State.step`. -/
def c1After : TraverseState :=
  { headFileEof := 2, baseFileEof := 2, segments := [], src := [], baseLn := 2, headLn := 1 }

/-- Witness for C1: on the concrete removed line the event drops `head_ln` and
only `base_ln` advances. -/
theorem reconcilerLineClassificationWitness :
    c1Event.headLn = none ∧ c1Event.baseLn = some c1State.baseLn ∧
      c1After.baseLn = c1State.baseLn + 1 ∧ c1After.headLn = c1State.headLn := by
  exact (reconcilerLineClassification c1State c1Event c1After (by decide)).1 (by decide)

/-- Reconciler state with no segments, head source `["-x"]`, both eof markers 2
(the `__init__` assertion `head_file_eof - 1 <= len(src)` holds), and `head_ln`
stuck at 1 while `base_ln` is `b`. -/
def c2State (b : Int) : TraverseState :=
  { headFileEof := 2, baseFileEof := 2, segments := [], src := [['-', 'x']],
    baseLn := b, headLn := 1 }

theorem c2State_step (b : Int) :
    (c2State b).step =
      some ({ baseLn := some b, headLn := none, value := some ['-', 'x'], isDiff := false },
            c2State (b + 1)) := rfl

theorem c2State_not_finished (b : Int) : (c2State b).traverseFinished = false := rfl

theorem c2State_run (n : Nat) : ∀ b : Int,
    applyN n (c2State b) = none ∧ stepN n (c2State b) = some (c2State (b + n)) := by
  induction n with
  | zero =>
    intro b
    constructor
    · simp [applyN, c2State_not_finished]
    · simp [stepN]
  | succ n ih =>
    intro b
    constructor
    · rw [applyN, c2State_not_finished, c2State_step]
      simp only [Bool.false_eq_true, if_false]
      rw [(ih (b + 1)).1]
    · rw [stepN, c2State_step]
      show stepN n (c2State (b + 1)) = some (c2State (b + ((n : Nat) + 1 : Nat)))
      rw [(ih (b + 1)).2]
      have : b + 1 + (n : Int) = b + ((n : Nat) + 1 : Nat) := by push_cast; ring
      rw [this]

/-- C2.  The reconciler loop does not terminate on an input satisfying the
claimed precondition: with no diff segments (trivially sorted and
non-overlapping), head source `["-x"]` (a line whose text starts with `-`, as
in any YAML list), and consistent eof markers, every iteration re-reads the
same source line, classifies it as removed, and advances only `base_ln`, so
`traverse_finished` (which watches `head_ln` against the source length) never
becomes true: `apply` fails for every fuel, while `step` keeps succeeding
without error and the state is never finished. -/
theorem reconcilerDivergesOnDashSrcLine (n : Nat) :
    applyN n (TraverseState.init 2 2 [] [['-', 'x']]) = none ∧
    stepN n (TraverseState.init 2 2 [] [['-', 'x']]) = some (c2State (1 + n)) ∧
    (c2State (1 + (n : Int))).traverseFinished = false := by
  have hinit : TraverseState.init 2 2 [] [['-', 'x']] = c2State 1 := rfl
  rw [hinit]
  exact ⟨(c2State_run n 1).1, (c2State_run n 1).2, c2State_not_finished _⟩

/-- The event the reconciler emits when no segment is active and no source is
supplied: the no-line sentinel with both pointers at `k`. -/
def pairedEvent (k : Int) : LineEvent :=
  { baseLn := some k, headLn := some k, value := none, isDiff := false }

/-- Reconciler state with no segments and no source, both pointers at `k`. -/
def noDiffState (he be k : Int) : TraverseState :=
  { headFileEof := he, baseFileEof := be, segments := [], src := [],
    baseLn := k, headLn := k }

theorem noDiffState_step (he be k : Int) :
    (noDiffState he be k).step = some (pairedEvent k, noDiffState he be (k + 1)) := rfl

theorem noDiffState_finished (he be k : Int) :
    (noDiffState he be k).traverseFinished = (decide (he ≤ k) && decide (be ≤ k)) := rfl

theorem noDiffState_run (n : Nat) : ∀ he be k : Int, k + n = max he be →
    applyN n (noDiffState he be k) =
      some ((List.range n).map (fun i : Nat => pairedEvent (k + (i : Int))),
            noDiffState he be (k + n)) := by
  induction n with
  | zero =>
    intro he be k hk
    have hfin : (noDiffState he be k).traverseFinished = true := by
      rw [noDiffState_finished]
      simp only [Nat.cast_zero, add_zero] at hk
      simp [le_of_max_le_left hk.ge, le_of_max_le_right hk.ge]
    simp [applyN, hfin]
  | succ n ih =>
    intro he be k hk
    have hklt : k < max he be := by
      rw [← hk]; push_cast; omega
    have hfin : (noDiffState he be k).traverseFinished = false := by
      rw [noDiffState_finished]
      rcases max_cases he be with ⟨hm, _⟩ | ⟨hm, _⟩ <;> rw [hm] at hklt <;>
        simp [not_le.mpr hklt]
    rw [applyN, hfin]
    simp only [Bool.false_eq_true, if_false]
    rw [noDiffState_step]
    have hk' : (k + 1) + (n : Int) = max he be := by push_cast at hk ⊢; linarith
    show (match applyN n (noDiffState he be (k + 1)) with
          | some (evs, sf) => some (pairedEvent k :: evs, sf)
          | none => none) =
        some ((List.range (n + 1)).map (fun i : Nat => pairedEvent (k + (i : Int))),
              noDiffState he be (k + ((n : Nat) + 1 : Nat)))
    rw [ih he be (k + 1) hk']
    have hev : (List.range (n + 1)).map (fun i : Nat => pairedEvent (k + (i : Int))) =
        pairedEvent k ::
          (List.range n).map (fun i : Nat => pairedEvent ((k + 1) + (i : Int))) := by
      rw [List.range_succ_eq_map, List.map_cons, List.map_map]
      simp only [Nat.cast_zero, add_zero]
      congr 1
      refine List.map_congr_left ?_
      intro i _
      simp only [Function.comp_apply]
      congr 1
      push_cast
      ring
    rw [hev]
    have hst : k + ((n : Nat) + 1 : Nat) = (k + 1) + (n : Int) := by push_cast; ring
    rw [hst]

/-- C7.  With no diff segments, no head source, and eof markers
`base_file_eof ≥ 1`, `head_file_eof ≥ 1`, the reconciler visits exactly
`max(base_file_eof, head_file_eof) - 1` lines, and every visited line's event
carries `base_ln = head_ln` (both present). -/
theorem noDiffNoSrcTraversal (he be : Int) (h1 : 1 ≤ he) (h2 : 1 ≤ be) :
    applyN (max he be - 1).toNat (TraverseState.init he be [] []) =
      some ((List.range (max he be - 1).toNat).map
              (fun i : Nat => pairedEvent (1 + (i : Int))),
            noDiffState he be (max he be)) ∧
    (((List.range (max he be - 1).toNat).map
        (fun i : Nat => pairedEvent (1 + (i : Int)))).length : Int) = max he be - 1 ∧
    ∀ e ∈ (List.range (max he be - 1).toNat).map
        (fun i : Nat => pairedEvent (1 + (i : Int))),
      e.baseLn = e.headLn ∧ e.baseLn ≠ none := by
  have hmax : 1 ≤ max he be := le_max_of_le_left h1
  have hcast : (((max he be - 1).toNat : Int)) = max he be - 1 := by omega
  have hinit : TraverseState.init he be [] [] = noDiffState he be 1 := rfl
  refine ⟨?_, ?_, ?_⟩
  · rw [hinit]
    have hrun := noDiffState_run (max he be - 1).toNat he be 1 (by omega)
    have harg : (1 : Int) + ((max he be - 1).toNat : Int) = max he be := by omega
    rw [hrun, harg]
  · rw [List.length_map, List.length_range]
    exact hcast
  · intro e he'
    simp only [List.mem_map] at he'
    obtain ⟨i, _, rfl⟩ := he'
    exact ⟨rfl, by simp [pairedEvent]⟩

/-- Witness for C7: with `head_file_eof = 4` and `base_file_eof = 3` the
reconciler visits exactly 3 paired lines. -/
theorem noDiffNoSrcTraversalWitness :
    applyN 3 (TraverseState.init 4 3 [] []) =
      some ([pairedEvent 1, pairedEvent 2, pairedEvent 3], noDiffState 4 3 4) := by
  have h := (noDiffNoSrcTraversal 4 3 (by norm_num) (by norm_num)).1
  have hm : max (4 : Int) 3 = 4 := by norm_num
  rw [hm] at h
  have h2 : applyN ((4 : Int) - 1).toNat (TraverseState.init 4 3 [] []) =
      applyN 3 (TraverseState.init 4 3 [] []) := rfl
  rw [h2] at h
  rw [h]
  decide

/-- One per-session coverage entry of a `ReportLine` (the source reads the
session's coverage value at index 1 of the session array). -/
structure LineSession where
  sid : Int
  coverage : Int
deriving DecidableEq

/-- One coverage line in the underlying array representation
`[coverage, type, sessions, ...]` used by `FileComparisonVisitor._get_line`:
we model the two positions the visitors read — index 0 (the coverage value)
and index 2 (the session list). -/
structure ReportLine where
  coverage : Int
  sessions : List LineSession
deriving DecidableEq

/-- One cell of `ReportFile._lines`: `none` models a falsy entry (null/empty);
a JSON-string entry is modelled as its decoded line array (the source decodes
it with `json.loads` before returning). -/
abbrev ReportCell := Option ReportLine

/-- The part of the external `ReportFile` the visitors read: the `_lines`
array. -/
structure ReportFile where
  lines : List ReportCell
deriving DecidableEq

/-- Modelled from the spec: `ReportFile.eof` lives in the external `shared`
package; per the spec's glossary the EOF pointer is the exclusive upper bound
"last line number + 1". -/
def ReportFile.eof (f : ReportFile) : Int := (f.lines.length : Int) + 1

/-- `FileComparisonVisitor._get_line`: `None` for a missing file or pointer;
`report_file._lines[ln - 1]` with `IndexError` recovered as `None`; a falsy
cell yields `None`, any other cell yields the line array. -/
def getLine (reportFile : Option ReportFile) (ln : Option Int) : Option ReportLine :=
  match reportFile, ln with
  | none, _ => none
  | _, none => none
  | some f, some n =>
      match pyGet f.lines (n - 1) with
      | none => none
      | some cell => cell

/-- The coverage-type marker. The Python enum is `shared.utils.merge.LineType`
(`hit`, `miss`, `partial`). -/
inductive LineType where
  | hit
  | miss
  | partialLine
deriving DecidableEq

/-- Modelled from the spec: `shared.utils.merge.line_type` is outside `src/`;
per the docstring of `CreateChangeSummaryVisitor._update_summary`, the
coverage value at index 0 of the line array is 0 for miss, 1 for hit and 2 for
partial. -/
def line_type (coverage : Int) : LineType :=
  if coverage = 0 then LineType.miss
  else if coverage = 2 then LineType.partialLine
  else LineType.hit

/-- The `collections.Counter` held by `CreateChangeSummaryVisitor`, restricted
to the three keys it ever touches (`hits`, `misses`, `partials`).
`isNonempty` records whether any key has been inserted: a `Counter` is truthy
iff it holds at least one key (a key set to 0 still counts). -/
structure PyCounter where
  hits : Int
  misses : Int
  partials : Int
  isNonempty : Bool
deriving DecidableEq

def PyCounter.empty : PyCounter :=
  { hits := 0, misses := 0, partials := 0, isNonempty := false }

/-- `self.summary[self.coverage_type_map[t]] += d` (inserting the key). -/
def PyCounter.add (c : PyCounter) (t : LineType) (d : Int) : PyCounter :=
  match t with
  | .hit => { c with hits := c.hits + d, isNonempty := true }
  | .miss => { c with misses := c.misses + d, isNonempty := true }
  | .partialLine => { c with partials := c.partials + d, isNonempty := true }

/-- `CreateChangeSummaryVisitor.__call__` followed by `_update_summary`:
skip source-changed lines (`+`/`-` prefix), skip lines missing on either side,
skip lines whose coverage type is unchanged; otherwise decrement the base
line's category and increment the head line's category. -/
def changeSummaryVisit (baseFile headFile : Option ReportFile) (c : PyCounter)
    (e : LineEvent) : PyCounter :=
  if (match e.value with
      | some ('+' :: _) => true
      | some ('-' :: _) => true
      | _ => false) then c
  else
    match getLine baseFile e.baseLn, getLine headFile e.headLn with
    | some bl, some hl =>
        if line_type bl.coverage = line_type hl.coverage then c
        else (c.add (line_type bl.coverage) (-1)).add (line_type hl.coverage) 1
    | _, _ => c

/-- The record built by `LineComparison.__init__`. -/
structure LineComparison where
  base_line : Option ReportLine
  head_line : Option ReportLine
  base_ln : Option Int
  head_ln : Option Int
  value : Option RawLine
  is_diff : Bool
  added : Bool
  removed : Bool
deriving DecidableEq

/-- `LineComparison.__init__` (computes `added`/`removed` from the value). -/
def mkLineComparison (base_line head_line : Option ReportLine)
    (base_ln head_ln : Option Int) (value : Option RawLine) (is_diff : Bool) :
    LineComparison :=
  { base_line := base_line, head_line := head_line,
    base_ln := base_ln, head_ln := head_ln, value := value, is_diff := is_diff,
    added := _is_added value, removed := _is_removed value }

/-- `CreateLineComparisonVisitor.__call__`: skip events whose value is `None`
(the no-line sentinel); otherwise look up both coverage lines and append a
`LineComparison`. -/
def createLineVisit (baseFile headFile : Option ReportFile)
    (acc : List LineComparison) (e : LineEvent) : List LineComparison :=
  match e.value with
  | none => acc
  | some v =>
      acc ++ [mkLineComparison (getLine baseFile e.baseLn) (getLine headFile e.headLn)
                e.baseLn e.headLn (some v) e.isDiff]

/-- `LineComparison.sessions`: `None` when the head line is absent; otherwise
the sum (`functools.reduce` over `+`) of the coverage values of the head
line's sessions whose coverage equals 1, or `None` implicitly when that
filtered list is empty. -/
def LineComparison.sessionsHitCount (lc : LineComparison) : Option Int :=
  match lc.head_line with
  | none => none
  | some hl =>
      match (hl.sessions.filter (fun s => s.coverage == 1)).map
          (fun s => s.coverage) with
      | [] => none
      | x :: rest => some (rest.foldl (fun a b => a + b) x)

/-- The signed total of the three change-summary keys. -/
def PyCounter.total (c : PyCounter) : Int := c.hits + c.misses + c.partials

theorem PyCounter.total_add (c : PyCounter) (t : LineType) (d : Int) :
    (c.add t d).total = c.total + d := by
  cases t <;> simp [PyCounter.add, PyCounter.total] <;> ring

theorem changeSummaryVisit_total (baseFile headFile : Option ReportFile)
    (c : PyCounter) (e : LineEvent) :
    (changeSummaryVisit baseFile headFile c e).total = c.total := by
  unfold changeSummaryVisit
  split
  · rfl
  · split
    · split
      · rfl
      · rw [PyCounter.total_add, PyCounter.total_add]; ring
    · rfl

theorem changeSummaryFold_total (baseFile headFile : Option ReportFile) :
    ∀ (events : List LineEvent) (c : PyCounter),
      (events.foldl (changeSummaryVisit baseFile headFile) c).total = c.total := by
  intro events
  induction events with
  | nil => intro c; rfl
  | cons e rest ih =>
    intro c
    rw [List.foldl_cons, ih, changeSummaryVisit_total]

/-- C3.  Whatever sequence of line events a reconciler pass feeds to
`CreateChangeSummaryVisitor`, whenever the resulting summary is non-empty the
values stored under `hits`, `misses` and `partials` sum to 0: each
contributing line decrements one category by 1 and increments a different
category by 1. -/
theorem changeSummaryZeroSum (baseFile headFile : Option ReportFile)
    (events : List LineEvent)
    (h : (events.foldl (changeSummaryVisit baseFile headFile) PyCounter.empty).isNonempty
          = true) :
    (events.foldl (changeSummaryVisit baseFile headFile) PyCounter.empty).total = 0 :=
  changeSummaryFold_total baseFile headFile events PyCounter.empty

/-- Base report file for the C3 witness: one line, coverage 0 (miss). -/
def c3Base : Option ReportFile := some { lines := [some { coverage := 0, sessions := [] }] }

/-- Head report file for the C3 witness: one line, coverage 1 (hit). -/
def c3Head : Option ReportFile := some { lines := [some { coverage := 1, sessions := [] }] }

/-- Witness for C3: one unchanged line flipping miss → hit yields a non-empty
summary whose three keys sum to 0. -/
theorem changeSummaryZeroSumWitness :
    (([{ baseLn := some 1, headLn := some 1, value := some ['x'], isDiff := false }] :
        List LineEvent).foldl (changeSummaryVisit c3Base c3Head) PyCounter.empty).total
      = 0 :=
  changeSummaryZeroSum c3Base c3Head _ (by decide)

/-- The concrete report file refuting C6: two lines, the second with
coverage 0. -/
def c6File : ReportFile :=
  { lines := [some { coverage := 1, sessions := [] },
              some { coverage := 0, sessions := [] }] }

/-- Counterexample to C6: line number 0 is outside the valid range `1..2`, yet
`_get_line` does not return absent coverage — Python's negative indexing makes
`_lines[0 - 1]` the LAST line, so the lookup returns line 2's coverage. -/
theorem getLineZeroCounterexample :
    getLine (some c6File) (some 0) = some { coverage := 0, sessions := [] } ∧
    getLine (some c6File) (some 0) ≠ none := by
  constructor
  · decide
  · decide

/-- C6 (amended).  `_get_line` never raises: for a line number strictly above
the file's line count it returns absent coverage, and likewise for a
non-positive line number whose magnitude reaches past the start of the file;
but for line number 0 and small negative line numbers (`0 < ln + n` where `n`
is the line count) Python's negative indexing wraps around and the lookup
returns the cell at 1-based position `n + ln` — another line's coverage, not
absent. -/
theorem getLineOutOfRange (f : ReportFile) (ln : Int) :
    ((f.lines.length : Int) < ln → getLine (some f) (some ln) = none) ∧
    (ln + (f.lines.length : Int) ≤ 0 → getLine (some f) (some ln) = none) ∧
    (ln ≤ 0 → 0 < ln + (f.lines.length : Int) →
      getLine (some f) (some ln) =
        (f.lines.get? ((f.lines.length : Int) + ln - 1).toNat).join) := by
  refine ⟨?_, ?_, ?_⟩
  · intro hgt
    have h0 : (0 : Int) ≤ ln - 1 := by omega
    have hlen : f.lines.length ≤ (ln - 1).toNat := by omega
    simp only [getLine, pyGet, if_pos h0]
    rw [List.get?_eq_none.mpr hlen]
  · intro hle
    have h0 : ¬ (0 : Int) ≤ ln - 1 := by omega
    have h1 : ¬ (0 : Int) ≤ (f.lines.length : Int) + (ln - 1) := by omega
    simp only [getLine, pyGet, if_neg h0, if_neg h1]
  · intro hln hpos
    have h0 : ¬ (0 : Int) ≤ ln - 1 := by omega
    have h1 : (0 : Int) ≤ (f.lines.length : Int) + (ln - 1) := by omega
    simp only [getLine, pyGet, if_neg h0, if_pos h1]
    have hidx : (f.lines.length : Int) + (ln - 1) = (f.lines.length : Int) + ln - 1 := by
      ring
    rw [hidx]
    cases hg : f.lines.get? ((f.lines.length : Int) + ln - 1).toNat with
    | none => simp [hg]
    | some cell => simp [hg]

/-- Witness for the amended C6: on the two-line file, line 3 and line −2 read
as absent, while line 0 wraps around to the cell of line 2. -/
theorem getLineOutOfRangeWitness :
    getLine (some c6File) (some 3) = none ∧
    getLine (some c6File) (some (-2)) = none ∧
    getLine (some c6File) (some 0) =
      (c6File.lines.get? ((c6File.lines.length : Int) + 0 - 1).toNat).join := by
  refine ⟨(getLineOutOfRange c6File 3).1 (by decide),
          (getLineOutOfRange c6File (-2)).2.1 (by decide),
          (getLineOutOfRange c6File 0).2.2 (by decide) (by decide)⟩

theorem foldl_add_of_all_one : ∀ (l : List Int) (a : Int), (∀ x ∈ l, x = 1) →
    l.foldl (fun a b => a + b) a = a + l.length := by
  intro l
  induction l with
  | nil => intro a _; simp
  | cons x rest ih =>
    intro a hall
    have hx : x = 1 := hall x (List.mem_cons_self x rest)
    rw [List.foldl_cons, ih (a + x) (fun y hy => hall y (List.mem_cons_of_mem x hy)), hx]
    simp only [List.length_cons]
    push_cast
    ring

/-- C10.  `LineComparison.sessions` is absent when the head line is absent;
otherwise it is the number of head-line session entries whose coverage value
equals 1, except that a count of zero is reported as absent rather than 0. -/
theorem sessionsHitCountSpec (lc : LineComparison) :
    lc.sessionsHitCount =
      match lc.head_line with
      | none => none
      | some hl =>
          if (hl.sessions.filter (fun s => s.coverage == 1)).length = 0 then none
          else some ((hl.sessions.filter (fun s => s.coverage == 1)).length : Int) := by
  unfold LineComparison.sessionsHitCount
  cases lc.head_line with
  | none => rfl
  | some hl =>
    simp only
    have hall : ∀ x ∈ (hl.sessions.filter (fun s => s.coverage == 1)).map
        (fun s => s.coverage), x = 1 := by
      intro x hx
      simp only [List.mem_map, List.mem_filter] at hx
      obtain ⟨s, ⟨_, hs⟩, rfl⟩ := hx
      exact by simpa using hs
    cases hfl : (hl.sessions.filter (fun s => s.coverage == 1)).map
        (fun s => s.coverage) with
    | nil =>
      have : (hl.sessions.filter (fun s => s.coverage == 1)).length = 0 := by
        have := congrArg List.length hfl
        simpa using this
      simp [this]
    | cons x rest =>
      have hlen : (hl.sessions.filter (fun s => s.coverage == 1)).length
          = rest.length + 1 := by
        have := congrArg List.length hfl
        simpa using this
      rw [hfl] at hall
      have hx1 : x = 1 := hall x (List.mem_cons_self x rest)
      have hrest : ∀ y ∈ rest, y = 1 := fun y hy => hall y (List.mem_cons_of_mem x hy)
      show some (rest.foldl (fun a b => a + b) x) = _
      rw [foldl_add_of_all_one rest x hrest, hx1, hlen, if_neg (by omega)]
      congr 1
      push_cast
      ring

/-- `MAX_DIFF_SIZE`. -/
def MAX_DIFF_SIZE : Int := 170

/-- The part of the provider's per-file `diff_data` dict the modelled
operations read: the segment list.  (The dict's other keys — `stats`,
`before`, `totals` — feed `stats`, rename fallback and `totals`, which are not
needed by the verified properties.)  A present `diff_data` dict is modelled as
`some`; its truthiness test in the source coincides with the `None` test
because a provider diff entry always carries its keys. -/
structure DiffData where
  segments : List Segment
deriving DecidableEq

/-- The state of a `FileComparison` after `__init__`. -/
structure FileComparison where
  base_file : Option ReportFile
  head_file : Option ReportFile
  diff_data : Option DiffData
  src : List RawLine
  bypass_max_diff : Bool
  should_search_for_changes : Option Bool
deriving DecidableEq

/-- `self.total_diff_length`: `functools.reduce(+)` over the raw line counts
of the segments when `diff_data` is present with a non-empty segment list,
otherwise 0 (the reduce is guarded because it has no initial value). -/
def FileComparison.total_diff_length (fc : FileComparison) : Int :=
  match fc.diff_data with
  | some d =>
      if d.segments.isEmpty then 0
      else (d.segments.map (fun seg => (seg.lines.length : Int))).foldl
        (fun a b => a + b) 0
  | none => 0

/-- The guard of `_calculated_changes_and_lines`:
`self.diff_data or self.should_search_for_changes is not False`. -/
def FileComparison.passRuns (fc : FileComparison) : Bool :=
  fc.diff_data.isSome || decide (fc.should_search_for_changes ≠ some false)

/-- The `FileComparisonTraverseManager` constructed by
`_calculated_changes_and_lines`. -/
def FileComparison.traversalState (fc : FileComparison) : TraverseState :=
  TraverseState.init
    (match fc.head_file with | some f => f.eof | none => 0)
    (match fc.base_file with | some f => f.eof | none => 0)
    (match fc.diff_data with | some d => d.segments | none => [])
    fc.src

/-- The result of running `.apply([change_summary_visitor, create_lines_visitor])`:
the traversal drives both visitors over the same event sequence (the visitors
never mutate the manager's state, so folding each one over the produced event
list is equivalent to the interleaved calls).  `none` when the traversal does
not finish within the fuel. -/
def FileComparison.runPassResult (fc : FileComparison) (fuel : Nat) :
    Option (PyCounter × List LineComparison) :=
  match applyN fuel fc.traversalState with
  | some (evs, _) =>
      some (evs.foldl (changeSummaryVisit fc.base_file fc.head_file) PyCounter.empty,
            evs.foldl (createLineVisit fc.base_file fc.head_file) [])
  | none => none

/-- `FileComparison._calculated_changes_and_lines`: apply the visitors only
when the file has a diff or `should_search_for_changes` is not known to be
`False`; otherwise both outputs stay empty. -/
def FileComparison.calculatedChangesAndLines (fc : FileComparison) (fuel : Nat) :
    Option (PyCounter × List LineComparison) :=
  if fc.passRuns then fc.runPassResult fuel
  else some (PyCounter.empty, [])

/-- `FileComparison.change_summary`. -/
def FileComparison.change_summary (fc : FileComparison) (fuel : Nat) :
    Option PyCounter :=
  (fc.calculatedChangesAndLines fuel).map Prod.fst

/-- `FileComparison.lines`: `None` ("unavailable") when the total diff length
exceeds `MAX_DIFF_SIZE` and bypass was not requested; otherwise the computed
line-comparison list.  The outer `Option` is the traversal fuel/crash monad;
the inner one is the truncation result. -/
def FileComparison.linesOut (fc : FileComparison) (fuel : Nat) :
    Option (Option (List LineComparison)) :=
  if fc.total_diff_length > MAX_DIFF_SIZE ∧ fc.bypass_max_diff = false then some none
  else (fc.calculatedChangesAndLines fuel).map (fun p => some p.2)

/-- `Comparison._retrieve_files_with_changes_from_cache`.
Modelled from the spec for the cache collaborator (§6, outside `src/`): the
redis entry under the comparison's key is `cacheEntry`; `json` round-trips a
string list identically and a missing key reads as `None`.  With no pull id
the probe is skipped and the method returns `None` (as it also does on a
connection error, which is caught and logged). -/
def retrieveFilesWithChangesFromCache (pullid : Option Int)
    (cacheEntry : Option (List String)) : Option (List String) :=
  match pullid with
  | some _ => cacheEntry
  | none => none

/-- `Comparison._set_files_with_changes_in_cache_if_not_already_set`: the
value written to the cache (`none` = no write).  `filesWithChangesProbe` is
`self._files_with_changes`, the result of the initial cache probe. -/
def setFilesWithChangesInCacheIfNotAlreadySet
    (filesWithChangesProbe : Option (List String)) (pullid : Option Int)
    (files_with_changes : List String) : Option (List String) :=
  if filesWithChangesProbe = none ∧ pullid ≠ none then some files_with_changes
  else none

/-- Line 536 of the source: the change-detection hint passed to each
`FileComparison` — `None` when the probe found no cached list, else membership
of the file name in that list. -/
def shouldSearchForChangesHint (filesWithChanges : Option (List String))
    (fileName : String) : Option Bool :=
  match filesWithChanges with
  | none => none
  | some l => some (decide (fileName ∈ l))

/-- The accumulator of the `files` generator: file names whose change summary
is truthy, in head-report order.  `changed name` abstracts the truthiness of
`self.get_file_comparison(name).change_summary`. -/
def filesWithChangesAccumulated (headFiles : List String) (changed : String → Bool) :
    List String :=
  headFiles.foldl (fun acc name => if changed name then acc ++ [name] else acc) []

/-- The cache write performed by exhausting the `files` generator. -/
def filesRunCacheWrite (pullid : Option Int) (cacheEntry : Option (List String))
    (headFiles : List String) (changed : String → Bool) : Option (List String) :=
  setFilesWithChangesInCacheIfNotAlreadySet
    (retrieveFilesWithChangesFromCache pullid cacheEntry) pullid
    (filesWithChangesAccumulated headFiles changed)

/-- The cache write the `files` generator has performed after yielding only
its first `k` comparisons: the `_set_files_with_changes_in_cache_if_not_already_set`
call follows the `for` loop, so it runs only once the sequence is exhausted. -/
def filesRunCacheWriteAfter (pullid : Option Int) (cacheEntry : Option (List String))
    (headFiles : List String) (changed : String → Bool) (k : Nat) :
    Option (List String) :=
  if headFiles.length ≤ k then filesRunCacheWrite pullid cacheEntry headFiles changed
  else none

/-- C4.  For a file with diff data, when the diff segments collectively hold
more than `MAX_DIFF_SIZE` (170) raw lines and bypass was not requested,
`lines` resolves to absent (not an error) while `change_summary` is computed
exactly as it would be with truncation bypassed; otherwise `lines` resolves to
the full line-comparison list produced by the pass. -/
theorem truncationPolicy (fc : FileComparison) (fuel : Nat) (d : DiffData)
    (hd : fc.diff_data = some d) :
    (fc.total_diff_length > MAX_DIFF_SIZE → fc.bypass_max_diff = false →
       fc.linesOut fuel = some none ∧
       fc.change_summary fuel =
         FileComparison.change_summary { fc with bypass_max_diff := true } fuel) ∧
    (fc.total_diff_length ≤ MAX_DIFF_SIZE ∨ fc.bypass_max_diff = true →
       fc.linesOut fuel = (fc.calculatedChangesAndLines fuel).map (fun p => some p.2)) := by
  constructor
  · intro h1 h2
    constructor
    · rw [FileComparison.linesOut, if_pos ⟨h1, h2⟩]
    · rfl
  · intro hor
    rw [FileComparison.linesOut, if_neg]
    rcases hor with hle | hby
    · intro hcon; omega
    · intro hcon; rw [hby] at hcon; exact Bool.noConfusion hcon.2

/-- Concrete oversized diff for the C4 witness: one segment with 171 raw
lines. -/
def c4Big : FileComparison :=
  { base_file := none, head_file := none,
    diff_data := some { segments :=
      [{ header := { baseOff := 1, baseLen := some 171, headOff := 1, headLen := some 171 },
         lines := List.replicate 171 ['x'] }] },
    src := [], bypass_max_diff := false, should_search_for_changes := none }

/-- Concrete small diff for the C4 witness: one segment with a single
unchanged line. -/
def c4Small : FileComparison :=
  { base_file := none, head_file := none,
    diff_data := some { segments :=
      [{ header := { baseOff := 1, baseLen := some 1, headOff := 1, headLen := some 1 },
         lines := [['x']] }] },
    src := [], bypass_max_diff := false, should_search_for_changes := none }

set_option maxRecDepth 4000 in
/-- Witness for C4: 171 raw diff lines truncate `lines` to absent, 1 raw diff
line resolves `lines` to the computed list. -/
theorem truncationPolicyWitness :
    FileComparison.linesOut c4Big 0 = some none ∧
    FileComparison.linesOut c4Small 2 =
      (FileComparison.calculatedChangesAndLines c4Small 2).map (fun p => some p.2) := by
  refine ⟨((truncationPolicy c4Big 0 _ rfl).1 (by decide) rfl).1,
          (truncationPolicy c4Small 2 _ rfl).2 (Or.inl (by decide))⟩

/-- C5.  The reconciler pass behind `(change_summary, lines)` is skipped —
leaving both outputs empty — exactly when the file has no diff and the
change-detection hint is definitively `False`; in every other case the single
shared pass supplies both outputs. -/
theorem passSkipPolicy (fc : FileComparison) (fuel : Nat) :
    (fc.passRuns = false ↔
       fc.diff_data = none ∧ fc.should_search_for_changes = some false) ∧
    (fc.passRuns = false →
       fc.calculatedChangesAndLines fuel = some (PyCounter.empty, [])) ∧
    (fc.passRuns = true →
       fc.calculatedChangesAndLines fuel = fc.runPassResult fuel) := by
  refine ⟨?_, ?_, ?_⟩
  · cases hdd : fc.diff_data with
    | some d => simp [FileComparison.passRuns, hdd]
    | none =>
      cases hss : fc.should_search_for_changes with
      | none => simp [FileComparison.passRuns, hdd, hss]
      | some b => cases b <;> simp [FileComparison.passRuns, hdd, hss]
  · intro h
    rw [FileComparison.calculatedChangesAndLines, h]
    rfl
  · intro h
    rw [FileComparison.calculatedChangesAndLines, h]
    rfl

/-- A `FileComparison` with no diff and a definitive `False` hint (pass
skipped). -/
def c5Skip : FileComparison :=
  { base_file := none, head_file := none, diff_data := none, src := [],
    bypass_max_diff := false, should_search_for_changes := some false }

/-- A `FileComparison` with no diff and an unknown hint (pass runs). -/
def c5Run : FileComparison :=
  { base_file := none, head_file := none, diff_data := none, src := [],
    bypass_max_diff := false, should_search_for_changes := none }

/-- Witness for C5: with no diff and hint `False` both outputs stay empty;
with no diff but an unknown hint the pass result is used. -/
theorem passSkipPolicyWitness :
    FileComparison.calculatedChangesAndLines c5Skip 5 = some (PyCounter.empty, []) ∧
    FileComparison.calculatedChangesAndLines c5Run 5 = FileComparison.runPassResult c5Run 5 := by
  exact ⟨(passSkipPolicy c5Skip 5).2.1 (by decide), (passSkipPolicy c5Run 5).2.2 (by decide)⟩

/-- The cached changed-file list written for the pull request in C8. -/
def c8Cached : Option (List String) := some ["a.py", "b.py"]

/-- Counterexample to C8: with the cached list `["a.py", "b.py"]` present, a
fresh comparison resolves the hint for the uncached name `c.py` to a
definitive `False` (membership test), not to unknown as the claim states. -/
theorem cacheHintCounterexample :
    shouldSearchForChangesHint
      (retrieveFilesWithChangesFromCache (some 7) c8Cached) "c.py" = some false ∧
    shouldSearchForChangesHint
      (retrieveFilesWithChangesFromCache (some 7) c8Cached) "c.py" ≠ none := by
  constructor
  · rfl
  · intro h
    exact Option.noConfusion h

/-- C8 (amended).  After a cache write of `["a.py", "b.py"]` for a pull
request, a fresh `Comparison` for the same pull id resolves the
change-detection hint by membership in the cached list: `true` for `a.py` and
`b.py`, and definitively `false` (not unknown) for any other name; the hint is
unknown only when no cache entry exists for the pull id. -/
theorem cacheHintMembership (pid : Int) (stored : List String) (name : String) :
    shouldSearchForChangesHint
        (retrieveFilesWithChangesFromCache (some pid) (some stored)) name =
      some (decide (name ∈ stored)) ∧
    shouldSearchForChangesHint
        (retrieveFilesWithChangesFromCache (some pid) none) name = none ∧
    shouldSearchForChangesHint
        (retrieveFilesWithChangesFromCache (some pid) (some ["a.py", "b.py"])) "a.py"
      = some true ∧
    shouldSearchForChangesHint
        (retrieveFilesWithChangesFromCache (some pid) (some ["a.py", "b.py"])) "b.py"
      = some true := by
  exact ⟨rfl, rfl, rfl, rfl⟩

/-- C9.  Exhausting the `files` sequence writes the accumulated changed-file
list to the cache iff the initial probe found no value and a pull id is
present; a prior cached value is never overwritten; no write happens without a
pull id, and none happens before the sequence is exhausted. -/
theorem filesCacheFirstWriterWins (pullid : Option Int)
    (cacheEntry : Option (List String)) (headFiles : List String)
    (changed : String → Bool) :
    (filesRunCacheWrite pullid cacheEntry headFiles changed =
        some (filesWithChangesAccumulated headFiles changed) ↔
      retrieveFilesWithChangesFromCache pullid cacheEntry = none ∧ pullid ≠ none) ∧
    (∀ v, cacheEntry = some v → pullid ≠ none →
      filesRunCacheWrite pullid cacheEntry headFiles changed = none) ∧
    (pullid = none → filesRunCacheWrite pullid cacheEntry headFiles changed = none) ∧
    (∀ k, k < headFiles.length →
      filesRunCacheWriteAfter pullid cacheEntry headFiles changed k = none) := by
  refine ⟨?_, ?_, ?_, ?_⟩
  · constructor
    · intro hw
      by_contra hc
      rw [filesRunCacheWrite, setFilesWithChangesInCacheIfNotAlreadySet, if_neg hc] at hw
      exact Option.noConfusion hw
    · intro hc
      rw [filesRunCacheWrite, setFilesWithChangesInCacheIfNotAlreadySet, if_pos hc]
  · intro v hv hp
    cases hpid : pullid with
    | none => exact absurd hpid hp
    | some p =>
      rw [filesRunCacheWrite, setFilesWithChangesInCacheIfNotAlreadySet, if_neg]
      intro hcond
      have hce : cacheEntry = none := hcond.1
      rw [hv] at hce
      exact Option.noConfusion hce
  · intro hp
    rw [filesRunCacheWrite, setFilesWithChangesInCacheIfNotAlreadySet, if_neg]
    intro hcond
    exact hcond.2 hp
  · intro k hk
    rw [filesRunCacheWriteAfter, if_neg (by omega)]

/-- Witness for C9: with pull id 5 and an empty probe the accumulated list
`["a.py"]` is written; a prior entry or a partially consumed sequence blocks
the write. -/
theorem filesCacheFirstWriterWinsWitness :
    filesRunCacheWrite (some 5) none ["a.py", "c.py"] (fun n => n == "a.py")
      = some ["a.py"] ∧
    filesRunCacheWrite (some 5) (some ["b.py"]) ["a.py", "c.py"] (fun n => n == "a.py")
      = none ∧
    filesRunCacheWriteAfter (some 5) none ["a.py", "c.py"] (fun n => n == "a.py") 1
      = none := by
  refine ⟨?_, ?_, ?_⟩
  · have h := (filesCacheFirstWriterWins (some 5) none ["a.py", "c.py"]
      (fun n => n == "a.py")).1.mpr ⟨rfl, by exact fun hc => Option.noConfusion hc⟩
    rw [h]
    rfl
  · exact (filesCacheFirstWriterWins (some 5) (some ["b.py"]) ["a.py", "c.py"]
      (fun n => n == "a.py")).2.1 ["b.py"] rfl (fun hc => Option.noConfusion hc)
  · exact (filesCacheFirstWriterWins (some 5) none ["a.py", "c.py"]
      (fun n => n == "a.py")).2.2.2 1 (by norm_num)

end CodecovComparison
